import Mathlib

/-!
Verification of the recurrence and day-boundary core of the common-notebook
application.

The embedding models:
* `frontend/app/lib/recurrenceLabels.ts` (recurrence descriptor),
* `frontend/app/lib/dayBoundaryHelpers.ts` (effective day, worked-on phase),
* `frontend/app/lib/dateUtils.ts` (completion date, today-for-recurrence),
* the recurrence advancer consumed by the skip/complete routes (the route
  handlers themselves are not in the source tree; they are modelled from the
  specification, see the doc comments marked `Modelled from the spec`).

Modelling conventions:
* An instant is an `Int` count of minutes since 1970-01-01T00:00 UTC
  (day number 0 = 1970-01-01).  A calendar date is its day number.
* The IANA timezone-conversion capability of `date-fns-tz` is modelled as a
  fixed offset `off` in minutes: `toZonedTime t off = t + off`, matching the
  source comment "toZonedTime returns a shifted timestamp where UTC
  components represent the target timezone values" (the runtime's own
  timezone is UTC, as in the repository's test environment).  Reading a
  `Date`'s calendar fields (either the `getUTC*` accessors or the plain
  accessors under a UTC runtime) is modelled by decomposing the integer.
* JavaScript number-to-string interpolation of integers is modelled by
  `intToString`; the proleptic Gregorian calendar of `Date` is modelled by
  `daysFromCivil` / `civilFromDays`.
-/

set_option linter.unusedVariables false

namespace CommonNotebook

/-! ## Decimal rendering (model of JS template-literal interpolation) -/

/-- One decimal digit as a character. -/
def digitCh (n : Nat) : Char :=
  match n with
  | 0 => '0' | 1 => '1' | 2 => '2' | 3 => '3' | 4 => '4'
  | 5 => '5' | 6 => '6' | 7 => '7' | 8 => '8' | 9 => '9'
  | _ => '0'

/-- Fuel-driven digit expansion of a natural number, most significant first. -/
def natToCharsAux : Nat → Nat → List Char
  | 0, _ => []
  | fuel+1, n =>
    if n < 10 then [digitCh n] else natToCharsAux fuel (n / 10) ++ [digitCh (n % 10)]

/-- Decimal digits of a natural number. -/
def natToChars (n : Nat) : List Char := natToCharsAux (n + 1) n

/-- Decimal string of a natural number. -/
def natToString (n : Nat) : String := String.mk (natToChars n)

/-- Decimal string of an integer, as JavaScript renders a number in a
template literal. -/
def intToString (i : Int) : String :=
  if i < 0 then "-" ++ natToString (-i).toNat else natToString i.toNat

/-- Zero-pad to two digits (model of `String(x).padStart(2, '0')` and of the
`MM`/`dd` format tokens). -/
def pad2 (n : Nat) : String := if n < 10 then "0" ++ natToString n else natToString n

/-- Zero-pad to four digits (the `yyyy` format token, CE years). -/
def pad4 (n : Nat) : String :=
  if n < 10 then "000" ++ natToString n
  else if n < 100 then "00" ++ natToString n
  else if n < 1000 then "0" ++ natToString n
  else natToString n

/-! ## Civil calendar (model of the proleptic Gregorian calendar of `Date`) -/

/-- Gregorian leap-year rule. -/
def isLeapYear (y : Int) : Prop := (y % 4 = 0 ∧ y % 100 ≠ 0) ∨ y % 400 = 0

instance (y : Int) : Decidable (isLeapYear y) := by unfold isLeapYear; infer_instance

/-- Number of days in a month of a year. -/
def daysInMonth (y m : Int) : Int :=
  if m = 2 then (if isLeapYear y then 29 else 28)
  else if m = 4 ∨ m = 6 ∨ m = 9 ∨ m = 11 then 30
  else 31

/-- Day number (days since 1970-01-01) of a civil date, for month `m` in 1..12. -/
def daysFromCivil (y m d : Int) : Int :=
  let y2 := if m ≤ 2 then y - 1 else y
  let era := y2 / 400
  let yoe := y2 - era * 400
  let mp := (m + 9) % 12
  let doy := (153 * mp + 2) / 5 + d - 1
  let doe := yoe * 365 + yoe / 4 - yoe / 100 + doy
  era * 146097 + doe - 719468

/-- Civil date `(year, month, day)` of a day number. -/
def civilFromDays (z : Int) : Int × Int × Int :=
  let z2 := z + 719468
  let era := z2 / 146097
  let doe := z2 - era * 146097
  let yoe := (doe - doe / 1460 + doe / 36524 - doe / 146096) / 365
  let y := yoe + era * 400
  let doy := doe - (365 * yoe + yoe / 4 - yoe / 100)
  let mp := (5 * doy + 2) / 153
  let d := doy - (153 * mp + 2) / 5 + 1
  let m := mp + (if mp < 10 then 3 else -9)
  (if m ≤ 2 then y + 1 else y, m, d)

/-- Render a day number as a `YYYY-MM-DD` string (the hand-rolled date-only
formatting path of `formatInEST`, and the `yyyy-MM-dd` format of
`date-fns-tz`). -/
def formatISODate (day : Int) : String :=
  let c := civilFromDays day
  pad4 c.1.toNat ++ "-" ++ pad2 c.2.1.toNat ++ "-" ++ pad2 c.2.2.toNat

/-! ## Instants and the timezone model -/

/-- Day number containing an instant (minutes since epoch). -/
def dayOfInstant (t : Int) : Int := t / 1440

/-- Hour of day, 0..23, of an instant. -/
def hourOfInstant (t : Int) : Int := t % 1440 / 60

/-- Model of `date-fns-tz` `toZonedTime` under a UTC runtime: shift the
instant by the timezone offset so that UTC field accessors of the result
yield the target timezone's wall-clock fields. -/
def toZonedTime (t off : Int) : Int := t + off

/-- Reading a `Date`'s year/month/day fields (UTC runtime) and assembling
`YYYY-MM-DD`: the `yyyy-MM-dd` branch of `formatInEST` after its own
`toZonedTime`, and also `date-fns-tz` `format` with `yyyy-MM-dd` (which takes
its calendar fields from the `Date` value itself). -/
def formatYMDLocal (d : Int) : String := formatISODate (dayOfInstant d)

/-- `dateUtils.toISODateInEST` = `formatInEST(date, 'yyyy-MM-dd')`: applies
`toZonedTime` to its argument and then reads the calendar fields. -/
def toISODateInEST (d off : Int) : String := formatYMDLocal (toZonedTime d off)

/-! ## dayBoundaryHelpers.ts -/

/-- `getEffectiveDayForTimestamp(timestamp, dayBoundaryHour)` from
`dayBoundaryHelpers.ts`: zone the timestamp, roll back one calendar day when
the zoned hour is before the boundary hour, then format through
`toISODateInEST` (which shifts by the timezone offset again). -/
def getEffectiveDayForTimestamp (timestamp off dayBoundaryHour : Int) : String :=
  let zonedTime := toZonedTime timestamp off
  let adjusted := if hourOfInstant zonedTime < dayBoundaryHour then zonedTime - 1440 else zonedTime
  toISODateInEST adjusted off

/-- `getWorkedOnPhase(workSessionTimestamp, now, visibilityMinutes,
dayBoundaryHour)` from `dayBoundaryHelpers.ts`. -/
def getWorkedOnPhase (sessionTime now visibilityMinutes off dayBoundaryHour : Int) : Nat :=
  let minutesSinceSession := now - sessionTime
  let sessionDay := getEffectiveDayForTimestamp sessionTime off dayBoundaryHour
  let currentDay := getEffectiveDayForTimestamp now off dayBoundaryHour
  if sessionDay ≠ currentDay then 3
  else if minutesSinceSession ≤ visibilityMinutes then 1
  else 2

/-! ## dateUtils.ts -/

/-- `getCompletionDateForRecurrence(completionTime)` from `dateUtils.ts`:
zone the completion time, read its hour, subtract one day (`addDays(_, -1)`,
i.e. 1440 minutes) when before the boundary, and format the zoned value
directly with `date-fns-tz` `format('yyyy-MM-dd')`. -/
def getCompletionDateForRecurrence (completionTime off dayBoundaryHour : Int) : String :=
  let zonedTime := toZonedTime completionTime off
  let completionHour := hourOfInstant zonedTime
  if completionHour < dayBoundaryHour then formatYMDLocal (zonedTime - 1440)
  else formatYMDLocal zonedTime

/-- `getTodayForRecurrence()` from `dateUtils.ts`, with the current instant
and configuration passed explicitly.  The source formats the zoned "now" as
`yyyy-MM-dd`, re-parses that string at the boundary hour with
`fromZonedTime` (wall time minus offset), and subtracts one day when the
current zoned hour is before the boundary; the format/parse round trip of
the external date library is modelled as the identity on the day number. -/
def getTodayForRecurrence (now off dayBoundaryHour : Int) : Int :=
  let zonedNow := toZonedTime now off
  let todayDay := dayOfInstant zonedNow
  let todayAtBoundary := todayDay * 1440 + dayBoundaryHour * 60 - off
  let currentHour := hourOfInstant zonedNow
  if currentHour < dayBoundaryHour then todayAtBoundary - 1440 else todayAtBoundary

/-! ## Specification-side effective day (for comparison) -/

/-- Modelled from the spec (§3, EffectiveDay): the day number of the
timezone-local calendar day of the instant, minus one when the local hour is
strictly below the boundary hour. -/
def effectiveDayNumberSpec (t off b : Int) : Int :=
  if hourOfInstant (t + off) < b then dayOfInstant (t + off) - 1 else dayOfInstant (t + off)

/-- Modelled from the spec (§4.1, `effectiveDay`): the effective day of an
instant rendered as a `YYYY-MM-DD` string. -/
def effectiveDaySpec (t off b : Int) : String :=
  formatISODate (effectiveDayNumberSpec t off b)

/-! ## The todo data model (recurrence-relevant fields) -/

/-- The recurrence-relevant fields of a `Todo`.  Optional numeric fields are
`Option Int` (`none` models both `null` and `undefined`, which the source
guards handle identically through `!= null`). -/
structure Todo where
  recurrenceType : String
  recurrenceInterval : Option Int := none
  recurrenceDayOfWeek : Option Int := none
  recurrenceDayOfMonth : Option Int := none
  recurrenceWeekOfMonth : Option Int := none
  recurrenceDayOfWeekMonthly : Option Int := none
  recurrenceMonth : Option Int := none
  isRecurring : Bool := true

/-! ## recurrenceLabels.ts (recurrence descriptor) -/

/-- The weekday-name table of `getDayName`, indexed 0 = Sunday .. 6 =
Saturday. -/
def dayNames : List String :=
  ["sunday", "monday", "tuesday", "wednesday", "thursday", "friday", "saturday"]

/-- `getDayName(dayIndex)` from `recurrenceLabels.ts`: "unknown" for
`null`/`undefined` or an index outside 0..6, else the table entry. -/
def getDayName (dayIndex : Option Int) : String :=
  match dayIndex with
  | none => "unknown"
  | some i => if i < 0 ∨ i > 6 then "unknown" else dayNames.getD i.toNat "unknown"

/-- `getOrdinal(num)` from `recurrenceLabels.ts`.  JavaScript `%` is the
truncated remainder, `Int.tmod`. -/
def getOrdinal (num : Int) : String :=
  let j := Int.tmod num 10
  let k := Int.tmod num 100
  if j = 1 ∧ k ≠ 11 then intToString num ++ "st"
  else if j = 2 ∧ k ≠ 12 then intToString num ++ "nd"
  else if j = 3 ∧ k ≠ 13 then intToString num ++ "rd"
  else intToString num ++ "th"

/-- `getMonthName(monthIndex)` from `recurrenceLabels.ts`. -/
def getMonthName (monthIndex : Option Int) : String :=
  match monthIndex with
  | none => "unknown"
  | some i =>
    if i < 1 ∨ i > 12 then "unknown"
    else ["january", "february", "march", "april", "may", "june", "july",
          "august", "september", "october", "november", "december"].getD (i - 1).toNat "unknown"

/-- `getRecurrencePrefix(todo)` from `recurrenceLabels.ts`. -/
def getRecurrencePrefix (todo : Todo) : String :=
  match todo.recurrenceType with
  | "daily" => "every day"
  | "every x days" =>
    match todo.recurrenceInterval with
    | some i => if i > 0 then "every " ++ intToString i ++ " days" else "every x days"
    | none => "every x days"
  | "weekly" =>
    match todo.recurrenceDayOfWeek with
    | some d =>
      if 1 ≤ d ∧ d ≤ 7 then "every " ++ getDayName (some (Int.tmod d 7)) else "weekly"
    | none => "weekly"
  | "biweekly" =>
    match todo.recurrenceDayOfWeek with
    | some d =>
      if 1 ≤ d ∧ d ≤ 7 then "every other " ++ getDayName (some (Int.tmod d 7)) else "biweekly"
    | none => "biweekly"
  | "monthly date" =>
    match todo.recurrenceDayOfMonth with
    | some d => if 1 ≤ d ∧ d ≤ 31 then "on the " ++ getOrdinal d else "monthly"
    | none => "monthly"
  | "monthly day" =>
    match todo.recurrenceWeekOfMonth, todo.recurrenceDayOfWeekMonthly with
    | some w, some dm =>
      if 1 ≤ dm ∧ dm ≤ 7 then getOrdinal w ++ " " ++ getDayName (some (Int.tmod dm 7))
      else "monthly"
    | _, _ => "monthly"
  | "annually" =>
    match todo.recurrenceMonth, todo.recurrenceDayOfMonth with
    | some m, some d =>
      if 1 ≤ m ∧ m ≤ 12 then intToString m ++ "/" ++ intToString d else "annually"
    | _, _ => "annually"
  | "full moon" => ""
  | "new moon" => ""
  | "every season" => ""
  | "winter solstice" => ""
  | "spring equinox" => ""
  | "summer solstice" => ""
  | "autumn equinox" => ""
  | _ => ""

/-- The ISO-8601 weekday naming convention (1 = Monday .. 7 = Sunday) that
the database fields use, as the spec states it. -/
def isoWeekdayName (d : Int) : String :=
  if d = 1 then "monday"
  else if d = 2 then "tuesday"
  else if d = 3 then "wednesday"
  else if d = 4 then "thursday"
  else if d = 5 then "friday"
  else if d = 6 then "saturday"
  else if d = 7 then "sunday"
  else "unknown"

/-! ## Recurrence advancer and the skip/complete routes

The route handlers under `app/api/todos/[documentId]/skip` and `/complete`
are not part of the source tree (only their tests are), so the advancement
logic they share is modelled from the specification (§4.3). -/

/-- Day number of the Nth occurrence of a weekday inside a month: weekday of
a day number is `(day + 4) % 7` with 0 = Sunday (1970-01-01 was a
Thursday). -/
def nthWeekdayOfMonth (y m w dw : Int) : Int :=
  let first := daysFromCivil y m 1
  let firstWeekday := (first + 4) % 7
  let target := dw % 7
  first + (target - firstWeekday) % 7 + 7 * (w - 1)

/-- Modelled from the spec (§4.3, `nextOccurrence`): the per-type
advancement rules for the next occurrence date; the skip/complete route
handlers that embed this logic are not under the source tree.  `none` models
the `MalformedRule` failure (required fields missing or out of range) and
the delegated astronomical types. -/
def nextOccurrence (rule : Todo) (currentDate referenceToday : Int) : Option Int :=
  match rule.recurrenceType with
  | "daily" => some (currentDate + 1)
  | "every x days" =>
    match rule.recurrenceInterval with
    | some i => if 0 < i then some (currentDate + i) else none
    | none => none
  | "weekly" => some (currentDate + 7)
  | "biweekly" => some (currentDate + 14)
  | "monthly date" =>
    match rule.recurrenceDayOfMonth with
    | some d =>
      if 1 ≤ d ∧ d ≤ 31 then
        let c := civilFromDays currentDate
        let y2 := if c.2.1 = 12 then c.1 + 1 else c.1
        let m2 := if c.2.1 = 12 then 1 else c.2.1 + 1
        some (daysFromCivil y2 m2 (min d (daysInMonth y2 m2)))
      else none
    | none => none
  | "monthly day" =>
    match rule.recurrenceWeekOfMonth, rule.recurrenceDayOfWeekMonthly with
    | some w, some dw =>
      if 1 ≤ w ∧ w ≤ 5 ∧ 1 ≤ dw ∧ dw ≤ 7 then
        let c := civilFromDays currentDate
        let y2 := if c.2.1 = 12 then c.1 + 1 else c.1
        let m2 := if c.2.1 = 12 then 1 else c.2.1 + 1
        some (nthWeekdayOfMonth y2 m2 w dw)
      else none
    | _, _ => none
  | "annually" =>
    match rule.recurrenceMonth, rule.recurrenceDayOfMonth with
    | some m, some d =>
      if 1 ≤ m ∧ m ≤ 12 ∧ 1 ≤ d ∧ d ≤ 31 then
        let c := civilFromDays currentDate
        some (daysFromCivil (c.1 + 1) m d)
      else none
    | _, _ => none
  | _ => none

/-- Outcome of a skip or complete request on a recurring todo: the display
date of the freshly created occurrence and the lifecycle disposition of the
old one. -/
structure RouteOutcome where
  newDisplayDate : Option Int
  oldDeleted : Bool
  oldCompleted : Bool
deriving DecidableEq

/-- Modelled from the spec (§3 Occurrence lifecycle, §4.3, §7; route handler
not under the source tree): the skip entry point rejects non-recurring
todos, computes the next occurrence, creates the new occurrence and deletes
the old one. -/
def skipRoute (todo : Todo) (currentDate referenceToday : Int) : Except String RouteOutcome :=
  if todo.isRecurring then
    match nextOccurrence todo currentDate referenceToday with
    | some nd => .ok ⟨some nd, true, false⟩
    | none => .error "MalformedRule"
  else .error "Todo is not recurring"

/-- Modelled from the spec (§3 Occurrence lifecycle, §4.3, §7; route handler
not under the source tree): the complete entry point marks the old
occurrence completed; for a recurring todo it also computes the next
occurrence and creates the new occurrence. -/
def completeRoute (todo : Todo) (currentDate referenceToday : Int) : Except String RouteOutcome :=
  if todo.isRecurring then
    match nextOccurrence todo currentDate referenceToday with
    | some nd => .ok ⟨some nd, false, true⟩
    | none => .error "MalformedRule"
  else .ok ⟨none, false, true⟩

/-- The display date a route's response carries for the new occurrence
(`none` both for a rejected request and for a completed non-recurring
todo, which creates no new occurrence). -/
def routeNewDate : Except String RouteOutcome → Option Int
  | .ok o => o.newDisplayDate
  | .error _ => none

/-- The lifecycle disposition `(oldDeleted, oldCompleted)` of the prior
occurrence, when the request succeeded. -/
def routeDisposition : Except String RouteOutcome → Option (Bool × Bool)
  | .ok o => some (o.oldDeleted, o.oldCompleted)
  | .error _ => none

/-! ## Substring machinery (for the "never contains unknown" invariant) -/

/-- Whether `needle` is an initial segment of `hay`. -/
def listStartsWith : List Char → List Char → Bool
  | [], _ => true
  | _ :: _, [] => false
  | a :: as, b :: bs => a = b && listStartsWith as bs

/-- Whether `needle` occurs contiguously inside `hay`. -/
def containsSeq (needle : List Char) : List Char → Bool
  | [] => needle.isEmpty
  | b :: bs => listStartsWith needle (b :: bs) || containsSeq needle bs

/-- Whether the string contains `"unknown"` as a substring. -/
def containsUnknown (s : String) : Bool := containsSeq "unknown".data s.data

/-! ## Concrete todo values used by the theorems -/

/-- A weekly todo with the given ISO day of week. -/
def weeklyTodo (d : Int) : Todo := { recurrenceType := "weekly", recurrenceDayOfWeek := some d }

/-- A biweekly todo with the given ISO day of week. -/
def biweeklyTodo (d : Int) : Todo := { recurrenceType := "biweekly", recurrenceDayOfWeek := some d }

/-- A monthly-day todo with the given week of month and ISO day of week. -/
def monthlyDayTodo (w dm : Int) : Todo :=
  { recurrenceType := "monthly day", recurrenceWeekOfMonth := some w,
    recurrenceDayOfWeekMonthly := some dm }

/-- A daily todo. -/
def dailyTodo : Todo := { recurrenceType := "daily" }

/-! ## Helper lemmas -/

theorem listStartsWith_mem :
    ∀ (n h : List Char), listStartsWith n h = true → ∀ c ∈ n, c ∈ h := by
  intro n
  induction n with
  | nil => intro h _ c hc; cases hc
  | cons a as ih =>
    intro h hs c hc
    cases h with
    | nil => simp [listStartsWith] at hs
    | cons b bs =>
      simp only [listStartsWith, Bool.and_eq_true, decide_eq_true_eq] at hs
      rcases List.mem_cons.1 hc with rfl | hmem
      · exact List.mem_cons.2 (Or.inl hs.1)
      · exact List.mem_cons.2 (Or.inr (ih bs hs.2 c hmem))

theorem containsSeq_mem (n : List Char) :
    ∀ (h : List Char), containsSeq n h = true → ∀ c ∈ n, c ∈ h := by
  intro h
  induction h with
  | nil =>
    intro hs c hc
    simp only [containsSeq, List.isEmpty_iff] at hs
    subst hs; cases hc
  | cons b bs ih =>
    intro hs c hc
    simp only [containsSeq, Bool.or_eq_true] at hs
    rcases hs with hs | hs
    · exact listStartsWith_mem n (b :: bs) hs c hc
    · exact List.mem_cons.2 (Or.inr (ih hs c hc))

theorem containsUnknown_eq_false (s : String) (h : 'k' ∉ s.data) :
    containsUnknown s = false := by
  cases hc : containsUnknown s with
  | false => rfl
  | true =>
    exact absurd (containsSeq_mem "unknown".data s.data hc 'k' (by decide)) h

theorem mem_data_append {c : Char} {s t : String} :
    c ∈ (s ++ t).data ↔ c ∈ s.data ∨ c ∈ t.data := by
  show c ∈ s.data ++ t.data ↔ _
  exact List.mem_append

theorem digitCh_ne_k (n : Nat) : digitCh n ≠ 'k' := by
  unfold digitCh
  split <;> decide

theorem k_not_mem_natToCharsAux : ∀ (fuel n : Nat), 'k' ∉ natToCharsAux fuel n := by
  intro fuel
  induction fuel with
  | zero => intro n hm; cases hm
  | succ f ih =>
    intro n hm
    unfold natToCharsAux at hm
    split at hm
    · exact digitCh_ne_k n (List.mem_singleton.1 hm).symm
    · rcases List.mem_append.1 hm with hm | hm
      · exact ih (n / 10) hm
      · exact digitCh_ne_k (n % 10) (List.mem_singleton.1 hm).symm

theorem k_not_mem_natToString (n : Nat) : 'k' ∉ (natToString n).data :=
  k_not_mem_natToCharsAux (n + 1) n

theorem k_not_mem_intToString (i : Int) : 'k' ∉ (intToString i).data := by
  unfold intToString
  split
  · intro hm
    rcases mem_data_append.1 hm with hm | hm
    · simp at hm
    · exact k_not_mem_natToString (-i).toNat hm
  · exact k_not_mem_natToString i.toNat

theorem k_not_mem_getOrdinal (w : Int) : 'k' ∉ (getOrdinal w).data := by
  simp only [getOrdinal]
  split
  · intro hm
    rcases mem_data_append.1 hm with hm | hm
    · exact k_not_mem_intToString w hm
    · simp at hm
  · split
    · intro hm
      rcases mem_data_append.1 hm with hm | hm
      · exact k_not_mem_intToString w hm
      · simp at hm
    · split
      · intro hm
        rcases mem_data_append.1 hm with hm | hm
        · exact k_not_mem_intToString w hm
        · simp at hm
      · intro hm
        rcases mem_data_append.1 hm with hm | hm
        · exact k_not_mem_intToString w hm
        · simp at hm

theorem k_not_mem_getDayName (d : Int) (h1 : 1 ≤ d) (h2 : d ≤ 7) :
    'k' ∉ (getDayName (some (Int.tmod d 7))).data := by
  interval_cases d <;> decide

/-- The day-number branch of `getCompletionDateForRecurrence` agrees with
the spec's effective-day definition for every instant, timezone offset and
boundary hour. -/
theorem getCompletionDateForRecurrence_eq_spec (t off b : Int) :
    getCompletionDateForRecurrence t off b = effectiveDaySpec t off b := by
  simp only [getCompletionDateForRecurrence, effectiveDaySpec, effectiveDayNumberSpec,
    formatYMDLocal, toZonedTime]
  by_cases h : hourOfInstant (t + off) < b
  · rw [if_pos h, if_pos h]
    exact congrArg formatISODate (by unfold dayOfInstant; omega)
  · rw [if_neg h, if_neg h]

/-! ## Claims -/

/-- C1: for every `dayOfWeek` in 1..7 the weekly descriptor is
`"every {weekday}"` with the weekday read off the ISO-8601 convention
(1 = Monday .. 7 = Sunday); the same mapping drives the biweekly and
monthly-day labels, and in particular `dayOfWeek = 7` renders as
`"every sunday"`, never `"every saturday"`. -/
theorem c1_iso_weekday_mapping :
    (∀ d : Int, 1 ≤ d → d ≤ 7 →
      getRecurrencePrefix (weeklyTodo d) = "every " ++ isoWeekdayName d) ∧
    (∀ d : Int, 1 ≤ d → d ≤ 7 →
      getRecurrencePrefix (biweeklyTodo d) = "every other " ++ isoWeekdayName d) ∧
    (∀ d : Int, 1 ≤ d → d ≤ 7 →
      getRecurrencePrefix (monthlyDayTodo 1 d) = "1st " ++ isoWeekdayName d) ∧
    getRecurrencePrefix (weeklyTodo 7) = "every sunday" ∧
    getRecurrencePrefix (weeklyTodo 7) ≠ "every saturday" := by
  refine ⟨?_, ?_, ?_, by decide, by decide⟩ <;>
    · intro d h1 h2
      interval_cases d <;> decide

/-- Witness for C1 at `dayOfWeek = 7`. -/
theorem c1_iso_weekday_mapping_witness :
    getRecurrencePrefix (weeklyTodo 7) = "every " ++ isoWeekdayName 7 :=
  c1_iso_weekday_mapping.1 7 (by decide) (by decide)

/-- C2 counterexample: `weekOfMonth = 0` is outside the declared range 1..5,
yet the monthly-day descriptor does not fall back to `"monthly"` — only
presence of `weekOfMonth` is checked, so the label `"0th monday"` is
produced. -/
theorem c2_fallback_counterexample :
    getRecurrencePrefix (monthlyDayTodo 0 1) = "0th monday" ∧
    getRecurrencePrefix (monthlyDayTodo 0 1) ≠ "monthly" := by
  constructor
  · decide
  · decide

/-- C2 amended: the descriptor is total by construction (it never throws)
and returns the generic fallback label exactly under the conditions the
code enforces: a missing or non-positive `interval`, a missing or
out-of-range (1..7) `dayOfWeek`, a missing or out-of-range (1..31)
`dayOfMonth` for monthly-date, a missing `weekOfMonth` or a missing or
out-of-range (1..7) `dayOfWeekMonthly`, and a missing or out-of-range
(1..12) `month` or missing `dayOfMonth` for annually.  `weekOfMonth` and
the annually `dayOfMonth` are only checked for presence, not range. -/
theorem c2_fallback_amended :
    (∀ t : Todo, t.recurrenceType = "every x days" →
      (∀ i, t.recurrenceInterval = some i → i ≤ 0) →
      getRecurrencePrefix t = "every x days") ∧
    (∀ t : Todo, t.recurrenceType = "weekly" →
      (∀ d, t.recurrenceDayOfWeek = some d → d < 1 ∨ 7 < d) →
      getRecurrencePrefix t = "weekly") ∧
    (∀ t : Todo, t.recurrenceType = "biweekly" →
      (∀ d, t.recurrenceDayOfWeek = some d → d < 1 ∨ 7 < d) →
      getRecurrencePrefix t = "biweekly") ∧
    (∀ t : Todo, t.recurrenceType = "monthly date" →
      (∀ d, t.recurrenceDayOfMonth = some d → d < 1 ∨ 31 < d) →
      getRecurrencePrefix t = "monthly") ∧
    (∀ t : Todo, t.recurrenceType = "monthly day" →
      (t.recurrenceWeekOfMonth = none ∨
        (∀ d, t.recurrenceDayOfWeekMonthly = some d → d < 1 ∨ 7 < d)) →
      getRecurrencePrefix t = "monthly") ∧
    (∀ t : Todo, t.recurrenceType = "annually" →
      ((∀ m, t.recurrenceMonth = some m → m < 1 ∨ 12 < m) ∨
        t.recurrenceDayOfMonth = none) →
      getRecurrencePrefix t = "annually") := by
  refine ⟨?_, ?_, ?_, ?_, ?_, ?_⟩ <;> intro t hty hbad <;>
    obtain ⟨ty, itv, dow, dom, wom, dowm, mo, rec⟩ := t <;>
    dsimp only at hty hbad <;> subst hty
  · cases itv with
    | none => rfl
    | some i =>
      have := hbad i rfl
      show (if i > 0 then _ else _) = _
      rw [if_neg (by omega)]
  · cases dow with
    | none => rfl
    | some d =>
      have := hbad d rfl
      show (if 1 ≤ d ∧ d ≤ 7 then _ else _) = _
      rw [if_neg (by omega)]
  · cases dow with
    | none => rfl
    | some d =>
      have := hbad d rfl
      show (if 1 ≤ d ∧ d ≤ 7 then _ else _) = _
      rw [if_neg (by omega)]
  · cases dom with
    | none => rfl
    | some d =>
      have := hbad d rfl
      show (if 1 ≤ d ∧ d ≤ 31 then _ else _) = _
      rw [if_neg (by omega)]
  · cases wom with
    | none => cases dowm <;> rfl
    | some w =>
      cases dowm with
      | none => rfl
      | some d =>
        rcases hbad with hbad | hbad
        · exact absurd hbad (by simp)
        · have := hbad d rfl
          show (if 1 ≤ d ∧ d ≤ 7 then _ else _) = _
          rw [if_neg (by omega)]
  · cases mo with
    | none => cases dom <;> rfl
    | some m =>
      cases dom with
      | none => rfl
      | some d =>
        rcases hbad with hbad | hbad
        · have := hbad m rfl
          show (if 1 ≤ m ∧ m ≤ 12 then _ else _) = _
          rw [if_neg (by omega)]
        · exact absurd hbad (by simp)

/-- Witness for the amended C2 at a weekly rule with `dayOfWeek = 9`. -/
theorem c2_fallback_amended_witness :
    getRecurrencePrefix (weeklyTodo 9) = "weekly" :=
  c2_fallback_amended.2.1 _ rfl (by intro d h; simp only [weeklyTodo, Option.some.injEq] at h; omega)

/-- C3: the claimed effective-day semantics fails on
`getEffectiveDayForTimestamp` for a non-UTC timezone.  The instant is
2026-01-06T07:00Z, i.e. wall clock 2026-01-06 02:00 in America/New_York
(offset -300 minutes), with boundary hour 4: the local hour 2 is before the
boundary, so the claimed (and spec §8 scenario 6) result is the previous
local calendar day "2026-01-05" — which `getCompletionDateForRecurrence`
and the spec-side definition deliver, while `getEffectiveDayForTimestamp`
returns "2026-01-04" because it feeds an already timezone-shifted value
into `toISODateInEST`, which shifts by the offset a second time. -/
theorem c3_effective_day_divergence :
    effectiveDaySpec (20459 * 1440 + 420) (-300) 4 = "2026-01-05" ∧
    getCompletionDateForRecurrence (20459 * 1440 + 420) (-300) 4 = "2026-01-05" ∧
    getEffectiveDayForTimestamp (20459 * 1440 + 420) (-300) 4 = "2026-01-04" := by
  refine ⟨by decide, by decide, by decide⟩

/-- C4: the phase classifier inherits the double-shift defect of
`getEffectiveDayForTimestamp`.  Session at wall clock 2026-01-05 23:00 and
"now" at 2026-01-06 01:00 in America/New_York with boundary hour 0: the
spec-side effective days differ, so the claim mandates phase 3, yet the
code compares its doubly-shifted days (both "2026-01-05") and returns
phase 2 because the 120 elapsed minutes exceed the 15-minute window. -/
theorem c4_phase_divergence :
    effectiveDaySpec (20458 * 1440 + 1380 + 300) (-300) 0 ≠
      effectiveDaySpec (20459 * 1440 + 60 + 300) (-300) 0 ∧
    getWorkedOnPhase (20458 * 1440 + 1380 + 300) (20459 * 1440 + 60 + 300) 15 (-300) 0 = 2 := by
  refine ⟨by decide, by decide⟩

/-- C5 counterexample: with boundary hour 4 in a zero-offset timezone at
10:00 of day 0, `getTodayForRecurrence` returns minute 240, the local
04:00 instant of the effective day — not a local-midnight instant as the
claim states. -/
theorem c5_not_midnight_counterexample :
    getTodayForRecurrence 600 0 4 = 240 ∧
    hourOfInstant (toZonedTime (getTodayForRecurrence 600 0 4) 0) ≠ 0 := by
  refine ⟨by decide, by decide⟩

/-- C5 amended: `getTodayForRecurrence` returns yesterday's
local-boundary-hour instant when the current local hour is strictly below
the boundary hour, and today's local-boundary-hour instant otherwise: the
returned instant is always local time `boundaryHour:00:00` (so local
midnight exactly when the boundary hour is 0), on the effective day of the
current instant. -/
theorem c5_effective_today_amended (now off b : Int) (hb0 : 0 ≤ b) (hb23 : b ≤ 23) :
    hourOfInstant (toZonedTime (getTodayForRecurrence now off b) off) = b ∧
    toZonedTime (getTodayForRecurrence now off b) off % 60 = 0 ∧
    dayOfInstant (toZonedTime (getTodayForRecurrence now off b) off) =
      effectiveDayNumberSpec now off b := by
  simp only [getTodayForRecurrence, effectiveDayNumberSpec, toZonedTime, dayOfInstant,
    hourOfInstant]
  split <;> refine ⟨by omega, by omega, by omega⟩

/-- Witness for the amended C5 at 10:00 of day 0, offset 0, boundary 4. -/
theorem c5_effective_today_amended_witness :
    hourOfInstant (toZonedTime (getTodayForRecurrence 600 0 4) 0) = 4 ∧
    toZonedTime (getTodayForRecurrence 600 0 4) 0 % 60 = 0 ∧
    dayOfInstant (toZonedTime (getTodayForRecurrence 600 0 4) 0) =
      effectiveDayNumberSpec 600 0 4 :=
  c5_effective_today_amended 600 0 4 (by decide) (by decide)

/-- C6: effective-day monotonicity fails on the code.  In America/New_York
(offset -300) with boundary hour 4, the instant one minute after wall clock
2026-01-05 23:59 is wall clock 2026-01-06 00:00; `getEffectiveDayForTimestamp`
maps the earlier instant to "2026-01-05" and the strictly later one to the
earlier day "2026-01-04": the function is not non-decreasing, so it cannot
have a single transition per 24-hour span at the boundary hour. -/
theorem c6_monotonicity_failure :
    (20458 * 1440 + 1439 + 300 : Int) < 20458 * 1440 + 1440 + 300 ∧
    getEffectiveDayForTimestamp (20458 * 1440 + 1439 + 300) (-300) 4 = "2026-01-05" ∧
    getEffectiveDayForTimestamp (20458 * 1440 + 1440 + 300) (-300) 4 = "2026-01-04" := by
  refine ⟨by decide, by decide, by decide⟩

/-- C7: for every recurring todo and every `(currentDate, referenceToday)`
pair, the skip and complete entry points succeed or fail together, carry
identical next-occurrence dates, and differ only in the disposition of the
prior occurrence: skip deletes it, complete marks it completed. -/
theorem c7_skip_complete_parity (todo : Todo) (currentDate referenceToday : Int)
    (hrec : todo.isRecurring = true) :
    routeNewDate (skipRoute todo currentDate referenceToday) =
      routeNewDate (completeRoute todo currentDate referenceToday) ∧
    (skipRoute todo currentDate referenceToday).isOk =
      (completeRoute todo currentDate referenceToday).isOk ∧
    routeDisposition (skipRoute todo currentDate referenceToday) ∈
      [none, some (true, false)] ∧
    routeDisposition (completeRoute todo currentDate referenceToday) ∈
      [none, some (false, true)] := by
  unfold skipRoute completeRoute
  rw [hrec]
  cases nextOccurrence todo currentDate referenceToday <;>
    simp [routeNewDate, routeDisposition, Except.isOk, Except.toBool]

/-- Witness for C7 at a daily todo advanced from day 0. -/
theorem c7_skip_complete_parity_witness :
    routeNewDate (skipRoute dailyTodo 0 0) = routeNewDate (completeRoute dailyTodo 0 0) ∧
    (skipRoute dailyTodo 0 0).isOk = (completeRoute dailyTodo 0 0).isOk ∧
    routeDisposition (skipRoute dailyTodo 0 0) ∈ [none, some (true, false)] ∧
    routeDisposition (completeRoute dailyTodo 0 0) ∈ [none, some (false, true)] :=
  c7_skip_complete_parity dailyTodo 0 0 rfl

/-- C8: a daily rule advances any current date by exactly one day and a
weekly rule by exactly seven days, whatever the `referenceToday` argument;
concretely 2026-01-05 advances to 2026-01-06 (daily) and to 2026-01-12
(weekly). -/
theorem c8_daily_weekly_advance :
    (∀ (t : Todo) (cur ref : Int), t.recurrenceType = "daily" →
      nextOccurrence t cur ref = some (cur + 1)) ∧
    (∀ (t : Todo) (cur ref : Int), t.recurrenceType = "weekly" →
      nextOccurrence t cur ref = some (cur + 7)) ∧
    nextOccurrence dailyTodo (daysFromCivil 2026 1 5) 0 = some (daysFromCivil 2026 1 6) ∧
    nextOccurrence (weeklyTodo 1) (daysFromCivil 2026 1 5) 999 =
      some (daysFromCivil 2026 1 12) ∧
    formatISODate (daysFromCivil 2026 1 5 + 1) = "2026-01-06" ∧
    formatISODate (daysFromCivil 2026 1 5 + 7) = "2026-01-12" := by
  refine ⟨?_, ?_, by decide, by decide, by decide, by decide⟩ <;>
    · intro t cur ref h
      obtain ⟨ty, itv, dow, dom, wom, dowm, mo, rec⟩ := t
      dsimp only at h
      subst h
      rfl

/-- Witness for C8 at day number 5. -/
theorem c8_daily_weekly_advance_witness :
    nextOccurrence dailyTodo 5 0 = some 6 :=
  c8_daily_weekly_advance.1 dailyTodo 5 0 rfl

/-- C9 counterexample: at the instant 2026-01-05T05:30Z — wall clock
2026-01-05 00:30 in America/New_York (offset -300) — with boundary hour 0,
the two effective-day implementations disagree: the completion-date path
formats the singly-shifted value and returns "2026-01-05" while
`getEffectiveDayForTimestamp` shifts twice and returns "2026-01-04". -/
theorem c9_implementations_disagree :
    getCompletionDateForRecurrence (20458 * 1440 + 330) (-300) 0 = "2026-01-05" ∧
    getEffectiveDayForTimestamp (20458 * 1440 + 330) (-300) 0 = "2026-01-04" ∧
    getCompletionDateForRecurrence (20458 * 1440 + 330) (-300) 0 ≠
      getEffectiveDayForTimestamp (20458 * 1440 + 330) (-300) 0 := by
  refine ⟨by decide, by decide, by decide⟩

/-- C9 amended: the two effective-day implementations agree for every
timestamp and boundary hour exactly in the zero-offset (UTC) configuration,
where the second timezone shift inside `toISODateInEST` is the identity. -/
theorem c9_agreement_at_utc (t b : Int) :
    getCompletionDateForRecurrence t 0 b = getEffectiveDayForTimestamp t 0 b := by
  simp only [getCompletionDateForRecurrence, getEffectiveDayForTimestamp, toISODateInEST,
    formatYMDLocal, toZonedTime, Int.add_zero]
  split <;> rfl

/-- C10: whatever the recurrence type and field values, the descriptor's
output never contains the string "unknown": every call site of `getDayName`
inside `getRecurrencePrefix` is guarded by a 1..7 range check on the
day-of-week field, so the "unknown" branch of `getDayName` is unreachable
through the public descriptor. -/
theorem c10_descriptor_never_unknown (todo : Todo) :
    containsUnknown (getRecurrencePrefix todo) = false := by
  obtain ⟨ty, itv, dow, dom, wom, dowm, mo, rec⟩ := todo
  unfold getRecurrencePrefix
  dsimp only
  split
  · decide
  · cases itv with
    | none => decide
    | some i =>
      dsimp only
      split
      · refine containsUnknown_eq_false _ fun hm => ?_
        rcases mem_data_append.1 hm with hm | hm
        · rcases mem_data_append.1 hm with hm | hm
          · exact absurd hm (by decide)
          · exact k_not_mem_intToString i hm
        · exact absurd hm (by decide)
      · decide
  · cases dow with
    | none => decide
    | some d =>
      dsimp only
      split
      · next h =>
        refine containsUnknown_eq_false _ fun hm => ?_
        rcases mem_data_append.1 hm with hm | hm
        · exact absurd hm (by decide)
        · exact k_not_mem_getDayName d h.1 h.2 hm
      · decide
  · cases dow with
    | none => decide
    | some d =>
      dsimp only
      split
      · next h =>
        refine containsUnknown_eq_false _ fun hm => ?_
        rcases mem_data_append.1 hm with hm | hm
        · exact absurd hm (by decide)
        · exact k_not_mem_getDayName d h.1 h.2 hm
      · decide
  · cases dom with
    | none => decide
    | some d =>
      dsimp only
      split
      · refine containsUnknown_eq_false _ fun hm => ?_
        rcases mem_data_append.1 hm with hm | hm
        · exact absurd hm (by decide)
        · exact k_not_mem_getOrdinal d hm
      · decide
  · cases wom with
    | none => cases dowm <;> rfl
    | some w =>
      cases dowm with
      | none => rfl
      | some dm =>
        dsimp only
        split
        · next h =>
          refine containsUnknown_eq_false _ fun hm => ?_
          rcases mem_data_append.1 hm with hm | hm
          · rcases mem_data_append.1 hm with hm | hm
            · exact k_not_mem_getOrdinal w hm
            · exact absurd hm (by decide)
          · exact k_not_mem_getDayName dm h.1 h.2 hm
        · decide
  · cases mo with
    | none => cases dom <;> rfl
    | some m =>
      cases dom with
      | none => rfl
      | some d =>
        dsimp only
        split
        · refine containsUnknown_eq_false _ fun hm => ?_
          rcases mem_data_append.1 hm with hm | hm
          · rcases mem_data_append.1 hm with hm | hm
            · exact k_not_mem_intToString m hm
            · exact absurd hm (by decide)
          · exact k_not_mem_intToString d hm
        · decide
  · decide
  · decide
  · decide
  · decide
  · decide
  · decide
  · decide
  · decide

end CommonNotebook
